import Mathlib

/-!
Verification development for the production-hardening layer of the
browser-automation agent (`wei-prototype/browser-use/production_utils.py`):
the error taxonomy, the exception classifier, the retry gate, the circuit
breaker, and the phone validator, embedded shallowly and checked against
the natural-language specification.

Machine strings are embedded as Lean `String` restricted to their character
lists; Python's `str.lower` / `str.strip` / the `\s` regex class are embedded
for the ASCII range (every pattern and every literal the claims mention is
ASCII).  Wall-clock instants (`time.time()` floats) are embedded as rationals:
the code only subtracts and compares them.
-/

namespace ProductionUtils

/-- The `ErrorCategory` enumeration (production_utils.py lines 31-39). -/
inductive ErrorCategory
  | RETRYABLE_NETWORK
  | RETRYABLE_BROWSER
  | RETRYABLE_TIMEOUT
  | NON_RETRYABLE_VALIDATION
  | NON_RETRYABLE_AUTH
  | NON_RETRYABLE_PERMANENT
  | UNKNOWN
  deriving DecidableEq, Repr

/-- An `AgentError`: an exception carrying a message and a stored category
(production_utils.py lines 41-51).  The diagnostic-only fields
(`original_error`, `context`, `timestamp`) play no role in any claim and are
omitted. -/
structure AgentErr where
  message : String
  category : ErrorCategory
  deriving DecidableEq, Repr

/-- A Python exception as the classifier sees it: either a plain `Exception`
or an `AgentError` subclass instance. -/
inductive PyErr
  | plain (msg : String)
  | agent (e : AgentErr)
  deriving DecidableEq, Repr

/-- Python `str(e)`: for both plain exceptions and `AgentError` (whose constructor
passes `self.message` to `Exception.__init__`) this is the message string. -/
def errStr : PyErr → String
  | .plain m => m
  | .agent e => e.message

/-- Substring containment (Python `s1 in s2`) on character lists: `pat` occurs as a contiguous substring. -/
def containsSub (pat : List Char) : List Char → Bool
  | [] => pat.isEmpty
  | c :: t => pat.isPrefixOf (c :: t) || containsSub pat t

/-- Python's `pattern in s` substring test. -/
def strContains (s pat : String) : Bool := containsSub pat.data s.data

/-- Python `any(pattern in s for pattern in patterns)`. -/
def containsAny (pats : List String) (s : String) : Bool :=
  pats.any (fun p => strContains s p)

/-- Python `str.lower()`, embedded on the ASCII range via `Char.toLower`. -/
def pyLower (s : String) : String := String.mk (s.data.map Char.toLower)

/-- The network pattern group (production_utils.py lines 94-97). -/
def network_patterns : List String :=
  ["connection", "timeout", "network", "dns", "socket",
   "unreachable", "reset", "refused", "unavailable"]

/-- The browser pattern group (production_utils.py lines 102-105). -/
def browser_patterns : List String :=
  ["browser", "chromium", "playwright", "page", "element",
   "navigation", "screenshot", "session"]

/-- The auth pattern group (production_utils.py line 110). -/
def auth_patterns : List String :=
  ["auth", "unauthorized", "forbidden", "invalid key", "invalid token"]

/-- The validation pattern group (production_utils.py line 115). -/
def validation_patterns : List String :=
  ["validation", "invalid", "malformed", "required", "missing"]

/-- The pattern-matching body of `categorize_exception` applied to the
error's description (production_utils.py lines 91-120): lower-case the
description and test the five ordered groups, first match winning. -/
def categorize_msg (msg : String) : ErrorCategory :=
  let m := pyLower msg
  if containsAny network_patterns m then .RETRYABLE_NETWORK
  else if containsAny browser_patterns m then .RETRYABLE_BROWSER
  else if containsAny auth_patterns m then .NON_RETRYABLE_AUTH
  else if containsAny validation_patterns m then .NON_RETRYABLE_VALIDATION
  else .UNKNOWN

/-- The function `categorize_exception` (production_utils.py lines 81-120): it reads only
`str(exception)` and pattern-matches; it never looks at a stored category. -/
def categorize_exception (e : PyErr) : ErrorCategory := categorize_msg (errStr e)

/-- The three retryable categories (production_utils.py lines 133-137). -/
def retryable_categories : List ErrorCategory :=
  [.RETRYABLE_NETWORK, .RETRYABLE_BROWSER, .RETRYABLE_TIMEOUT]

/-- The function `should_retry_error` (production_utils.py lines 122-145): an
`AgentError`'s stored category is consulted directly; any other exception is
run through `categorize_exception`. -/
def should_retry_error (e : PyErr) : Bool :=
  match e with
  | .agent a => decide (a.category ∈ retryable_categories)
  | .plain _ => decide (categorize_exception e ∈ retryable_categories)

/-- The wrapper `safe_async_operation` (production_utils.py lines 567-590) on an already
completed operation outcome: a failure is re-raised as an `AgentError` whose
category is recomputed by `categorize_exception` — even when the failure
already was an `AgentError` with a stored category. -/
def safe_async_operation (opName : String) (r : Except PyErr α) : Except PyErr α :=
  match r with
  | .ok a => .ok a
  | .error e =>
      .error (.agent ⟨"Operation " ++ opName ++ " failed: " ++ errStr e,
                      categorize_exception e⟩)

/-- The spec's classifier (§4.1), written from the spec's words for
comparison with the source: "If the error already carries an explicit
category (was raised as a CategorizedError), that category is used directly
and pattern matching is skipped." -/
def classifySpec : PyErr → ErrorCategory
  | .agent a => a.category
  | .plain m => categorize_msg m

/-- C1, counterexample: `categorize_exception` of an `AgentError` whose
message contains the network pattern "connection" but whose stored category
is `NON_RETRYABLE_AUTH` does not return the stored category — pattern
matching is not skipped. -/
theorem categorize_agent_auth_counterexample :
    ¬ (categorize_exception (.agent ⟨"connection lost", .NON_RETRYABLE_AUTH⟩)
        = .NON_RETRYABLE_AUTH) := by decide

/-- C1, amended: the classifier `categorize_exception` always pattern-matches
the error's description and ignores any stored category (and
`safe_async_operation` re-categorizes an already categorized error the same
way); the stored category is honored only by `should_retry_error`, which for
an `AgentError` decides retryability from the stored category alone.  In
particular an `AgentError` with a network-pattern message is classified
`RETRYABLE_NETWORK` whatever its stored category. -/
theorem categorize_ignores_stored_category (msg : String) (c : ErrorCategory)
    (opName : String) :
    categorize_exception (.agent ⟨msg, c⟩) = categorize_msg msg
    ∧ should_retry_error (.agent ⟨msg, c⟩) = decide (c ∈ retryable_categories)
    ∧ safe_async_operation (α := Unit) opName (.error (.agent ⟨msg, c⟩))
        = .error (.agent ⟨"Operation " ++ opName ++ " failed: " ++ msg,
                          categorize_msg msg⟩)
    ∧ (containsAny network_patterns (pyLower msg) = true →
        categorize_exception (.agent ⟨msg, c⟩) = .RETRYABLE_NETWORK) := by
  refine ⟨rfl, rfl, rfl, fun h => ?_⟩
  simp [categorize_exception, categorize_msg, errStr, h]

/-- C1, witness for the amended theorem at a concrete error. -/
theorem categorize_ignores_stored_category_witness :
    containsAny network_patterns (pyLower "connection lost") = true
    ∧ categorize_exception (.agent ⟨"connection lost", .NON_RETRYABLE_AUTH⟩)
        = .RETRYABLE_NETWORK :=
  ⟨by decide,
   (categorize_ignores_stored_category "connection lost" .NON_RETRYABLE_AUTH
      "op").2.2.2 (by decide)⟩

/-- C2: `should_retry_error e` is true exactly when the spec's classifier
(stored category when present, otherwise pattern matching) puts `e` in one of
the three retryable categories — for plain exceptions and `AgentError`s
alike. -/
theorem should_retry_iff_classify_retryable (e : PyErr) :
    should_retry_error e = true ↔ classifySpec e ∈ retryable_categories := by
  cases e with
  | agent a => simp [should_retry_error, classifySpec]
  | plain m => simp [should_retry_error, classifySpec, categorize_exception, errStr]

/-- C3: the classifier is a total function applying the five ordered pattern
groups to the lower-cased description with first match winning: a network
match wins over everything, an auth match wins when neither network nor
browser matched, and a description matching no group is `UNKNOWN`. -/
theorem categorize_msg_pattern_groups (s : String) :
    (containsAny network_patterns (pyLower s) = true →
      categorize_msg s = .RETRYABLE_NETWORK)
    ∧ (containsAny auth_patterns (pyLower s) = true →
       containsAny network_patterns (pyLower s) = false →
       containsAny browser_patterns (pyLower s) = false →
      categorize_msg s = .NON_RETRYABLE_AUTH)
    ∧ (containsAny network_patterns (pyLower s) = false →
       containsAny browser_patterns (pyLower s) = false →
       containsAny auth_patterns (pyLower s) = false →
       containsAny validation_patterns (pyLower s) = false →
      categorize_msg s = .UNKNOWN) := by
  refine ⟨fun h1 => ?_, fun h1 h2 h3 => ?_, fun h1 h2 h3 h4 => ?_⟩ <;>
    simp [categorize_msg, *]

/-- C3, witness: a description hitting every group is still classified
network-retryable; one hitting only the auth group is auth; one hitting no
group is unknown. -/
theorem categorize_msg_pattern_groups_witness :
    categorize_msg "connection browser auth invalid" = .RETRYABLE_NETWORK
    ∧ categorize_msg "forbidden" = .NON_RETRYABLE_AUTH
    ∧ categorize_msg "xyz" = .UNKNOWN :=
  ⟨(categorize_msg_pattern_groups "connection browser auth invalid").1 (by decide),
   (categorize_msg_pattern_groups "forbidden").2.1 (by decide) (by decide) (by decide),
   (categorize_msg_pattern_groups "xyz").2.2 (by decide) (by decide) (by decide)
     (by decide)⟩

/-!  Retry policy (`production_retry`, production_utils.py lines 148-176).

The decorator only assembles third-party combinators
(`stop_after_attempt`, `wait_exponential`, `retry_if_exception_type(...) &
should_retry_error`); the loop itself lives in the tenacity library.  The
keyword lists below embed the construction call as written in the source and
the constructor signature it targets; the loop is modelled from the spec. -/

/-- The keyword arguments `production_retry` passes when constructing its
wait strategy (production_utils.py lines 167-172):
`wait_exponential(multiplier=..., max=..., exp_base=..., jitter=...)`. -/
def production_retry_wait_kwargs : List String :=
  ["multiplier", "max", "exp_base", "jitter"]

/-- The parameters accepted by the constructor of tenacity's
`wait_exponential` (tenacity/wait.py): `multiplier`, `max`, `exp_base`,
`min`, and nothing else; its documentation states the intervals are fixed,
i.e. this strategy has no jitter. -/
def wait_exponential_params : List String :=
  ["multiplier", "max", "exp_base", "min"]

/-- C5: `production_retry` passes a `jitter` keyword that the wait-strategy
constructor it calls does not accept, so constructing the retry decorator
fails (and no tenacity wait-exponential strategy ever adds jitter). -/
theorem production_retry_passes_unsupported_jitter :
    "jitter" ∈ production_retry_wait_kwargs
    ∧ "jitter" ∉ wait_exponential_params := by decide

/-- Modelled from the spec (§4.2): the retry loop `production_retry` is meant
to drive (the loop itself is tenacity-internal and its construction in the
source fails on the `jitter` keyword).  `fuel` is the number of retries still
allowed after the current attempt, `k` the number of attempts already made;
the result pairs the final outcome with the total number of invocations. -/
def retryGo (op : Nat → Except PyErr α) : Nat → Nat → Except PyErr α × Nat
  | fuel, k =>
    match op k with
    | .ok a => (.ok a, k + 1)
    | .error e =>
        if should_retry_error e then
          match fuel with
          | 0 => (.error e, k + 1)
          | f + 1 => retryGo op f (k + 1)
        else (.error e, k + 1)

/-- Modelled from the spec (§4.2): run an operation under the retry policy
with `maxAttempts` total attempts, returning the outcome and how many times
the operation was invoked. -/
def retryRun (maxAttempts : Nat) (op : Nat → Except PyErr α) :
    Except PyErr α × Nat :=
  retryGo op (maxAttempts - 1) 0

/-- C4 (intended semantics): under the spec's retry loop, an operation that
always raises a `NON_RETRYABLE_VALIDATION`-categorized error is invoked
exactly once and that very failure is the returned outcome, for every
`maxAttempts`.  (The source's `production_retry` itself cannot exhibit this:
constructing it fails on the unsupported `jitter` keyword, so a wrapped
operation is invoked zero times.) -/
theorem retry_validation_error_single_attempt (maxAttempts : Nat) (msg : String) :
    retryRun (α := Unit) maxAttempts
        (fun _ => .error (.agent ⟨msg, .NON_RETRYABLE_VALIDATION⟩))
      = (.error (.agent ⟨msg, .NON_RETRYABLE_VALIDATION⟩), 1) := by
  have h : should_retry_error (.agent ⟨msg, .NON_RETRYABLE_VALIDATION⟩) = false := by
    simp [should_retry_error, retryable_categories]
  cases maxAttempts <;> simp [retryRun, retryGo, h]

/-!  Circuit breaker (production_utils.py lines 178-237). -/

/-- The breaker's state tag (production_utils.py line 190). -/
inductive CBState
  | CLOSED
  | OPEN
  | HALF_OPEN
  deriving DecidableEq, Repr

/-- A `CircuitBreaker` instance: configuration plus mutable fields
(production_utils.py lines 183-190). -/
structure CircuitBreaker where
  failure_threshold : Nat
  recovery_timeout : ℚ
  failure_count : Nat
  last_failure_time : Option ℚ
  state : CBState
  deriving DecidableEq, Repr

/-- Constructor `CircuitBreaker.__init__`: closed, zero failures, no failure time. -/
def CircuitBreaker.init (ft : Nat) (rt : ℚ) : CircuitBreaker :=
  ⟨ft, rt, 0, none, .CLOSED⟩

/-- Method `_should_attempt_reset` (production_utils.py lines 217-221). -/
def CircuitBreaker.should_attempt_reset (cb : CircuitBreaker) (now : ℚ) : Bool :=
  match cb.last_failure_time with
  | none => true
  | some t => decide (cb.recovery_timeout ≤ now - t)

/-- The error raised when an open breaker rejects a call
(production_utils.py lines 200-204). -/
def circuit_open_error : AgentErr :=
  ⟨"Circuit breaker is OPEN - requests blocked", .NON_RETRYABLE_PERMANENT⟩

/-- Method `_on_success` (production_utils.py lines 223-228). -/
def CircuitBreaker.on_success (cb : CircuitBreaker) : CircuitBreaker :=
  { cb with
    state := if cb.state = .HALF_OPEN then .CLOSED else cb.state,
    failure_count := 0 }

/-- Method `_on_failure` (production_utils.py lines 230-237): increment the count,
record the failure time, open when the count reaches the threshold. -/
def CircuitBreaker.on_failure (cb : CircuitBreaker) (now : ℚ) : CircuitBreaker :=
  { cb with
    failure_count := cb.failure_count + 1,
    last_failure_time := some now,
    state := if cb.failure_threshold ≤ cb.failure_count + 1 then .OPEN
             else cb.state }

/-- The admission check at the top of the wrapper (production_utils.py lines
195-204): an open breaker either transitions to half-open (recovery timeout
elapsed) or rejects without invoking the operation (`none`). -/
def CircuitBreaker.gate (cb : CircuitBreaker) (now : ℚ) : Option CircuitBreaker :=
  if cb.state = .OPEN then
    if cb.should_attempt_reset now then some { cb with state := .HALF_OPEN }
    else none
  else some cb

/-- Outcome of one wrapped call: rejected without invoking the operation,
or invoked and succeeded / failed (the failure is re-raised). -/
inductive CallOutcome
  | rejected (e : PyErr)
  | succeeded
  | opFailed
  deriving DecidableEq, Repr

/-- One call through the wrapper (production_utils.py lines 192-215): the
admission check, then — when admitted — the operation, whose outcome
(`opFails`) drives `_on_success` / `_on_failure`. -/
def CircuitBreaker.call (cb : CircuitBreaker) (now : ℚ) (opFails : Bool) :
    CircuitBreaker × CallOutcome :=
  match cb.gate now with
  | none => (cb, .rejected (.agent circuit_open_error))
  | some cb1 =>
      if opFails then (cb1.on_failure now, .opFailed)
      else (cb1.on_success, .succeeded)

/-- Run a sequence of calls, each given by its wall-clock instant and
whether the wrapped operation fails. -/
def CircuitBreaker.run (cb : CircuitBreaker) (evs : List (ℚ × Bool)) :
    CircuitBreaker :=
  evs.foldl (fun c e => (c.call e.1 e.2).1) cb

/-- The reachability invariant: whenever the breaker is open or half-open,
the failure count has reached the threshold and a failure time is
recorded. -/
def CBInv (cb : CircuitBreaker) : Prop :=
  cb.state = .OPEN ∨ cb.state = .HALF_OPEN →
    cb.failure_threshold ≤ cb.failure_count ∧ cb.last_failure_time.isSome = true

theorem CBInv_init (ft : Nat) (rt : ℚ) : CBInv (CircuitBreaker.init ft rt) := by
  intro h
  rcases h with h | h <;> simp [CircuitBreaker.init] at h

theorem CBInv_on_success (cb : CircuitBreaker) (h : cb.state ≠ CBState.OPEN) :
    CBInv cb.on_success := by
  intro habs
  exfalso
  cases hcs : cb.state
  · rcases habs with habs | habs <;> simp [CircuitBreaker.on_success, hcs] at habs
  · exact h hcs
  · rcases habs with habs | habs <;> simp [CircuitBreaker.on_success, hcs] at habs

theorem CBInv_on_failure (cb : CircuitBreaker) (now : ℚ)
    (h : cb.state = CBState.HALF_OPEN → cb.failure_threshold ≤ cb.failure_count)
    (h2 : cb.state ≠ CBState.OPEN) : CBInv (cb.on_failure now) := by
  intro habs
  refine ⟨?_, by simp [CircuitBreaker.on_failure]⟩
  by_cases hc : cb.failure_threshold ≤ cb.failure_count + 1
  · simpa [CircuitBreaker.on_failure] using hc
  · exfalso
    simp only [CircuitBreaker.on_failure, if_neg hc] at habs
    rcases habs with habs | habs
    · exact h2 habs
    · exact hc (Nat.le_succ_of_le (h habs))

theorem CBInv_call (cb : CircuitBreaker) (now : ℚ) (b : Bool)
    (hinv : CBInv cb) : CBInv (cb.call now b).1 := by
  unfold CircuitBreaker.call
  cases hadm : cb.gate now with
  | none => exact hinv
  | some cb1 =>
    have hfacts : (cb1 = cb ∧ cb.state ≠ CBState.OPEN)
        ∨ (cb.state = CBState.OPEN ∧ cb1 = { cb with state := CBState.HALF_OPEN }) := by
      unfold CircuitBreaker.gate at hadm
      by_cases hs : cb.state = CBState.OPEN
      · by_cases hr : cb.should_attempt_reset now = true
        · simp [hs, hr] at hadm
          exact Or.inr ⟨hs, hadm.symm⟩
        · simp [hs, hr] at hadm
      · simp [hs] at hadm
        exact Or.inl ⟨hadm.symm, hs⟩
    cases b with
    | false =>
      simp only [Bool.false_eq_true, if_false]
      apply CBInv_on_success
      rcases hfacts with ⟨rfl, hne⟩ | ⟨hs, rfl⟩
      · exact hne
      · simp
    | true =>
      simp only [if_true]
      apply CBInv_on_failure
      · rcases hfacts with ⟨rfl, hne⟩ | ⟨hs, rfl⟩
        · exact fun hh => (hinv (Or.inr hh)).1
        · exact fun _ => (hinv (Or.inl hs)).1
      · rcases hfacts with ⟨rfl, hne⟩ | ⟨hs, rfl⟩
        · exact hne
        · simp

theorem CBInv_run (cb : CircuitBreaker) (evs : List (ℚ × Bool))
    (hinv : CBInv cb) : CBInv (cb.run evs) := by
  induction evs generalizing cb with
  | nil => exact hinv
  | cons e t ih =>
    simp only [CircuitBreaker.run, List.foldl_cons]
    exact ih _ (CBInv_call cb e.1 e.2 hinv)

/-- C6: with `failure_threshold = 3`, starting closed with zero failures,
three consecutive operation failures leave the breaker open (still closed
after two), with the third failure's timestamp recorded; a fourth call made
before the recovery timeout has elapsed since that timestamp is rejected
with the `NON_RETRYABLE_PERMANENT` circuit-open error, leaving the breaker
untouched and never invoking the operation (the rejection is the same for
either operation outcome). -/
theorem circuit_breaker_trips_after_three_failures
    (rt t1 t2 t3 t4 : ℚ) (cb3 : CircuitBreaker)
    (hcb : cb3 = (CircuitBreaker.init 3 rt).run [(t1, true), (t2, true), (t3, true)])
    (h4 : t4 - t3 < rt) :
    (CircuitBreaker.init 3 rt).state = .CLOSED
    ∧ (CircuitBreaker.init 3 rt).failure_count = 0
    ∧ ((CircuitBreaker.init 3 rt).run [(t1, true)]).state = .CLOSED
    ∧ ((CircuitBreaker.init 3 rt).run [(t1, true), (t2, true)]).state = .CLOSED
    ∧ cb3.state = .OPEN
    ∧ cb3.last_failure_time = some t3
    ∧ circuit_open_error.category = .NON_RETRYABLE_PERMANENT
    ∧ (∀ b : Bool, cb3.call t4 b = (cb3, .rejected (.agent circuit_open_error))) := by
  have h3eq : cb3 = ⟨3, rt, 3, some t3, .OPEN⟩ := hcb
  subst h3eq
  refine ⟨rfl, rfl, rfl, rfl, rfl, rfl, rfl, fun b => ?_⟩
  have hreset : CircuitBreaker.should_attempt_reset ⟨3, rt, 3, some t3, .OPEN⟩ t4 = false := by
    simp only [CircuitBreaker.should_attempt_reset, decide_eq_false_iff_not]
    exact not_le.mpr h4
  simp [CircuitBreaker.call, CircuitBreaker.gate, hreset]

/-- C6, witness: the scenario at `recovery_timeout = 60` and failure times
0, 1, 2 with the fourth call at time 10. -/
theorem circuit_breaker_trips_witness :
    ((CircuitBreaker.init 3 60).run [((0 : ℚ), true), (1, true), (2, true)]).state = .OPEN
    ∧ ((CircuitBreaker.init 3 60).run [((0 : ℚ), true), (1, true), (2, true)]).call 10 true
        = ((CircuitBreaker.init 3 60).run [((0 : ℚ), true), (1, true), (2, true)],
           .rejected (.agent circuit_open_error)) := by
  have h := circuit_breaker_trips_after_three_failures 60 0 1 2 10
    ((CircuitBreaker.init 3 60).run [((0 : ℚ), true), (1, true), (2, true)]) rfl
    (by norm_num)
  exact ⟨h.2.2.2.2.1, h.2.2.2.2.2.2.2 true⟩

/-- C7: a breaker that reached the open state (from the initial state by any
sequence of calls), once the recovery timeout has elapsed since the recorded
failure time, admits the next call as a half-open probe and invokes the
operation; a probe success closes the breaker and resets the failure count
to 0, and a probe failure re-opens it (recording the new failure time) —
the reachability invariant supplies the threshold check. -/
theorem circuit_breaker_half_open_recovery
    (ft : Nat) (rt : ℚ) (evs : List (ℚ × Bool)) (now t : ℚ) (cb : CircuitBreaker)
    (hcb : cb = (CircuitBreaker.init ft rt).run evs)
    (hopen : cb.state = .OPEN)
    (hlast : cb.last_failure_time = some t)
    (helapsed : cb.recovery_timeout ≤ now - t) :
    cb.gate now = some { cb with state := .HALF_OPEN }
    ∧ (cb.call now false).1.state = .CLOSED
    ∧ (cb.call now false).1.failure_count = 0
    ∧ (cb.call now false).2 = .succeeded
    ∧ (cb.call now true).1.state = .OPEN
    ∧ (cb.call now true).1.last_failure_time = some now
    ∧ (cb.call now true).2 = .opFailed := by
  have hinv : CBInv cb := by
    rw [hcb]
    exact CBInv_run _ evs (CBInv_init ft rt)
  have hcount : cb.failure_threshold ≤ cb.failure_count := (hinv (Or.inl hopen)).1
  have hreset : cb.should_attempt_reset now = true := by
    simp only [CircuitBreaker.should_attempt_reset, hlast, decide_eq_true_eq]
    exact helapsed
  have hadm : cb.gate now = some { cb with state := .HALF_OPEN } := by
    simp [CircuitBreaker.gate, hopen, hreset]
  refine ⟨hadm, ?_, ?_, ?_, ?_, ?_, ?_⟩ <;>
    simp [CircuitBreaker.call, hadm, CircuitBreaker.on_success,
          CircuitBreaker.on_failure, Nat.le_succ_of_le hcount]

/-- C7, witness: a breaker opened by two failures at time 0 with
`failure_threshold = 2` and `recovery_timeout = 1`, probed at time 5. -/
theorem circuit_breaker_half_open_recovery_witness :
    (((CircuitBreaker.init 2 1).run [((0 : ℚ), true), (0, true)]).call 5 false).1.state = .CLOSED
    ∧ (((CircuitBreaker.init 2 1).run [((0 : ℚ), true), (0, true)]).call 5 false).1.failure_count = 0
    ∧ (((CircuitBreaker.init 2 1).run [((0 : ℚ), true), (0, true)]).call 5 true).1.state = .OPEN := by
  have h := circuit_breaker_half_open_recovery 2 1 [((0 : ℚ), true), (0, true)] 5 0
    ((CircuitBreaker.init 2 1).run [((0 : ℚ), true), (0, true)]) rfl rfl rfl
    (show (1 : ℚ) ≤ 5 - 0 by norm_num)
  exact ⟨h.2.1, h.2.2.1, h.2.2.2.2.1⟩

/-- C10: in every state reachable from the initial state by any sequence of
calls, if the breaker is open or half-open then the failure count has
reached the failure threshold and a failure timestamp is recorded. -/
theorem circuit_breaker_reachable_invariant
    (ft : Nat) (rt : ℚ) (evs : List (ℚ × Bool))
    (h : ((CircuitBreaker.init ft rt).run evs).state = .OPEN
       ∨ ((CircuitBreaker.init ft rt).run evs).state = .HALF_OPEN) :
    ((CircuitBreaker.init ft rt).run evs).failure_threshold
      ≤ ((CircuitBreaker.init ft rt).run evs).failure_count
    ∧ (((CircuitBreaker.init ft rt).run evs).last_failure_time).isSome = true :=
  CBInv_run _ evs (CBInv_init ft rt) h

/-- C10, witness: the invariant instantiated at a breaker opened by one
failure with threshold 1. -/
theorem circuit_breaker_reachable_invariant_witness :
    ((CircuitBreaker.init 1 60).run [((0 : ℚ), true)]).failure_threshold
      ≤ ((CircuitBreaker.init 1 60).run [((0 : ℚ), true)]).failure_count
    ∧ (((CircuitBreaker.init 1 60).run [((0 : ℚ), true)]).last_failure_time).isSome = true :=
  circuit_breaker_reachable_invariant 1 60 [((0 : ℚ), true)] (Or.inl rfl)

/-!  Phone validation (`RequestValidator.validate_phone`, production_utils.py
lines 395-424).  The anchored regex
`^\+?1?[-.\s]?\(?([0-9]{3})\)?[-.\s]?([0-9]{3})[-.\s]?([0-9]{4})$`
is embedded as a hand-compiled backtracking matcher over character lists;
`\s` and `str.strip` are embedded for the ASCII whitespace characters.  The
input is stripped before matching, so the stripped string has no trailing
newline and the `$` anchor coincides with end-of-string. -/

/-- ASCII whitespace, as stripped by `str.strip` and matched by `\s`. -/
def is_space (c : Char) : Bool :=
  c = ' ' || c = '\t' || c = '\n' || c = '\r' || c = '\x0b' || c = '\x0c'

/-- Python `str.strip()` on a character list. -/
def pyStrip (l : List Char) : List Char :=
  ((l.dropWhile is_space).reverse.dropWhile is_space).reverse

/-- The separator class `[-.\s]` of the phone regex. -/
def is_sep (c : Char) : Bool := c = '-' || c = '.' || is_space c

/-- Consume exactly `n` ASCII digits, returning the rest. -/
def eatDigits : Nat → List Char → Option (List Char)
  | 0, l => some l
  | _ + 1, [] => none
  | n + 1, c :: t => if c.isDigit then eatDigits n t else none

/-- Match an optional single character satisfying `p`, then continue with
`k` — both consuming and skipping are tried (regex backtracking). -/
def optThen (p : Char → Bool) (k : List Char → Bool) : List Char → Bool
  | [] => k []
  | c :: t => (p c && k t) || k (c :: t)

/-- Match exactly `n` digits, then continue with `k`. -/
def digitsThen (n : Nat) (k : List Char → Bool) (l : List Char) : Bool :=
  (eatDigits n l).elim false k

/-- The phone regex, matched against the whole (stripped) string. -/
def phone_match : List Char → Bool :=
  optThen (· = '+') (optThen (· = '1') (optThen is_sep (optThen (· = '(')
    (digitsThen 3 (optThen (· = ')') (optThen is_sep
      (digitsThen 3 (optThen is_sep (digitsThen 4 List.isEmpty)))))))))

/-- Python `re.sub(r'[^\d]', '', phone)`: keep only the digits. -/
def extract_digits (l : List Char) : List Char := l.filter Char.isDigit

/-- The error `validate_phone` raises on a missing or empty phone. -/
def phone_required_error : AgentErr :=
  ⟨"Phone number is required and must be a string", .NON_RETRYABLE_VALIDATION⟩

/-- The error `validate_phone` raises on a format mismatch. -/
def phone_format_error : AgentErr :=
  ⟨"Invalid phone number format", .NON_RETRYABLE_VALIDATION⟩

/-- Method `RequestValidator.validate_phone` (production_utils.py lines 395-424):
reject empty input, strip, match the regex, then normalize to
`+1XXXXXXXXXX` from the extracted digits (10 digits, or 11 starting with
`1`; any other match is returned stripped but unchanged). -/
def validate_phone (phone : String) : Except PyErr String :=
  if phone.data.isEmpty then .error (.agent phone_required_error)
  else
    let p := pyStrip phone.data
    if phone_match p then
      let ds := extract_digits p
      if ds.length = 10 then .ok (String.mk ('+' :: '1' :: ds))
      else if ds.length = 11 ∧ ds.head? = some '1' then .ok (String.mk ('+' :: ds))
      else .ok (String.mk p)
    else .error (.agent phone_format_error)

theorem eatDigits_sound : ∀ (n : Nat) (l rest : List Char),
    eatDigits n l = some rest →
    ∃ d, l = d ++ rest ∧ d.length = n ∧ ∀ c ∈ d, c.isDigit = true := by
  intro n
  induction n with
  | zero =>
    intro l rest h
    simp only [eatDigits, Option.some.injEq] at h
    exact ⟨[], by simp [h], rfl, by simp⟩
  | succ n ih =>
    intro l rest h
    cases l with
    | nil => simp [eatDigits] at h
    | cons c t =>
      simp only [eatDigits] at h
      split at h
      · next hc =>
        obtain ⟨d, ht, hlen, hdig⟩ := ih t rest h
        refine ⟨c :: d, by simp [ht], by simp [hlen], ?_⟩
        intro x hx
        rcases List.mem_cons.mp hx with rfl | hx
        · exact hc
        · exact hdig x hx
      · exact absurd h (by simp)

theorem eatDigits_all : ∀ (n : Nat) (d : List Char),
    (∀ c ∈ d, c.isDigit = true) → n ≤ d.length →
    eatDigits n d = some (d.drop n) := by
  intro n
  induction n with
  | zero => intro d _ _; simp [eatDigits]
  | succ n ih =>
    intro d hdig hn
    cases d with
    | nil => simp at hn
    | cons c t =>
      have hn' : n ≤ t.length := by
        simp only [List.length_cons] at hn
        omega
      simp only [eatDigits]
      rw [if_pos (hdig c (List.mem_cons_self c t)),
          ih t (fun x hx => hdig x (List.mem_cons_of_mem c hx)) hn']
      rfl

theorem optThen_sound (p : Char → Bool) (k : List Char → Bool) (l : List Char)
    (h : optThen p k l = true) :
    ∃ pre rest, l = pre ++ rest
      ∧ (pre = [] ∨ ∃ c, pre = [c] ∧ p c = true) ∧ k rest = true := by
  cases l with
  | nil =>
    simp only [optThen] at h
    exact ⟨[], [], rfl, Or.inl rfl, h⟩
  | cons c t =>
    simp only [optThen, Bool.or_eq_true, Bool.and_eq_true] at h
    rcases h with ⟨hp, hk⟩ | hk
    · exact ⟨[c], t, rfl, Or.inr ⟨c, rfl, hp⟩, hk⟩
    · exact ⟨[], c :: t, rfl, Or.inl rfl, hk⟩

theorem optThen_skip (p : Char → Bool) (k : List Char → Bool) (l : List Char)
    (h : k l = true) : optThen p k l = true := by
  cases l <;> simp [optThen, h]

theorem optThen_take (p : Char → Bool) (k : List Char → Bool) (c : Char)
    (t : List Char) (hp : p c = true) (hk : k t = true) :
    optThen p k (c :: t) = true := by
  simp [optThen, hp, hk]

theorem digitsThen_sound (n : Nat) (k : List Char → Bool) (l : List Char)
    (h : digitsThen n k l = true) :
    ∃ d rest, l = d ++ rest ∧ d.length = n
      ∧ (∀ c ∈ d, c.isDigit = true) ∧ k rest = true := by
  unfold digitsThen at h
  cases heat : eatDigits n l with
  | none => rw [heat] at h; simp [Option.elim] at h
  | some rest =>
    rw [heat] at h
    simp only [Option.elim] at h
    obtain ⟨d, hl, hlen, hdig⟩ := eatDigits_sound n l rest heat
    exact ⟨d, rest, hl, hlen, hdig, h⟩

theorem digitsThen_intro (n : Nat) (k : List Char → Bool) (l rest : List Char)
    (he : eatDigits n l = some rest) (hk : k rest = true) :
    digitsThen n k l = true := by
  unfold digitsThen
  rw [he]
  simpa using hk

theorem space_not_digit (c : Char) (h : is_space c = true) : c.isDigit = false := by
  simp only [is_space, Bool.or_eq_true, decide_eq_true_eq] at h
  rcases h with ((((rfl | rfl) | rfl) | rfl) | rfl) | rfl <;> rfl

theorem sep_not_digit (c : Char) (h : is_sep c = true) : c.isDigit = false := by
  simp only [is_sep, Bool.or_eq_true, decide_eq_true_eq] at h
  rcases h with (rfl | rfl) | hsp
  · rfl
  · rfl
  · exact space_not_digit c hsp

theorem digit_not_space (c : Char) (h : c.isDigit = true) : is_space c = false := by
  cases hs : is_space c
  · rfl
  · rw [space_not_digit c hs] at h
    cases h

theorem plus_not_digit (c : Char) (h : decide (c = '+') = true) : c.isDigit = false := by
  simp only [decide_eq_true_eq] at h
  subst h
  rfl

theorem lparen_not_digit (c : Char) (h : decide (c = '(') = true) : c.isDigit = false := by
  simp only [decide_eq_true_eq] at h
  subst h
  rfl

theorem rparen_not_digit (c : Char) (h : decide (c = ')') = true) : c.isDigit = false := by
  simp only [decide_eq_true_eq] at h
  subst h
  rfl

theorem filter_pre_none (pre : List Char) (p : Char → Bool)
    (hpre : pre = [] ∨ ∃ c, pre = [c] ∧ p c = true)
    (hcls : ∀ c, p c = true → c.isDigit = false) :
    pre.filter Char.isDigit = [] := by
  rcases hpre with rfl | ⟨c, rfl, hc⟩
  · rfl
  · simp [List.filter_cons, hcls c hc]

theorem filter_all_digits (d : List Char) (h : ∀ c ∈ d, c.isDigit = true) :
    d.filter Char.isDigit = d := by
  induction d with
  | nil => rfl
  | cons c t ih =>
    rw [List.filter_cons, if_pos (h c (List.mem_cons_self c t)),
        ih (fun x hx => h x (List.mem_cons_of_mem c hx))]

theorem dropWhile_all_neg (f : Char → Bool) (l : List Char)
    (h : ∀ c ∈ l, f c = false) : l.dropWhile f = l := by
  cases l with
  | nil => rfl
  | cons c t =>
    rw [List.dropWhile_cons, if_neg (by simp [h c (List.mem_cons_self c t)])]

theorem pyStrip_eq_self (l : List Char) (h : ∀ c ∈ l, is_space c = false) :
    pyStrip l = l := by
  unfold pyStrip
  rw [dropWhile_all_neg _ _ h, dropWhile_all_neg, List.reverse_reverse]
  intro c hc
  exact h c (List.mem_reverse.mp hc)

/-- Soundness of the phone matcher: an accepted string holds exactly the ten
group digits, possibly preceded by the optional country-code `1`. -/
theorem phone_match_digits (l : List Char) (h : phone_match l = true) :
    ∃ d, d.length = 10 ∧ (∀ c ∈ d, c.isDigit = true)
      ∧ (extract_digits l = d ∨ extract_digits l = '1' :: d) := by
  unfold phone_match at h
  obtain ⟨a1, r1, hl, ha1, h⟩ := optThen_sound _ _ _ h
  obtain ⟨a2, r2, hr1, ha2, h⟩ := optThen_sound _ _ _ h
  obtain ⟨a3, r3, hr2, ha3, h⟩ := optThen_sound _ _ _ h
  obtain ⟨a4, r4, hr3, ha4, h⟩ := optThen_sound _ _ _ h
  obtain ⟨d1, r5, hr4, hd1len, hd1, h⟩ := digitsThen_sound _ _ _ h
  obtain ⟨a5, r6, hr5, ha5, h⟩ := optThen_sound _ _ _ h
  obtain ⟨a6, r7, hr6, ha6, h⟩ := optThen_sound _ _ _ h
  obtain ⟨d2, r8, hr7, hd2len, hd2, h⟩ := digitsThen_sound _ _ _ h
  obtain ⟨a7, r9, hr8, ha7, h⟩ := optThen_sound _ _ _ h
  obtain ⟨d3, r10, hr9, hd3len, hd3, h⟩ := digitsThen_sound _ _ _ h
  have hr10 : r10 = [] := by
    cases r10 with
    | nil => rfl
    | cons x xs => simp [List.isEmpty] at h
  subst hr10 hr9 hr8 hr7 hr6 hr5 hr4 hr3 hr2 hr1 hl
  refine ⟨d1 ++ d2 ++ d3, by simp [hd1len, hd2len, hd3len], ?_, ?_⟩
  · intro c hc
    simp only [List.mem_append] at hc
    rcases hc with (hc | hc) | hc
    · exact hd1 c hc
    · exact hd2 c hc
    · exact hd3 c hc
  · unfold extract_digits
    simp only [List.filter_append]
    rw [filter_pre_none a1 _ ha1 plus_not_digit,
        filter_pre_none a3 _ ha3 sep_not_digit,
        filter_pre_none a4 _ ha4 lparen_not_digit,
        filter_pre_none a5 _ ha5 rparen_not_digit,
        filter_pre_none a6 _ ha6 sep_not_digit,
        filter_pre_none a7 _ ha7 sep_not_digit,
        filter_all_digits d1 hd1,
        filter_all_digits d2 hd2,
        filter_all_digits d3 hd3]
    rcases ha2 with rfl | ⟨c, rfl, hc⟩
    · left
      simp
    · right
      have hc1 : c = '1' := by simpa using hc
      subst hc1
      simp [List.filter_cons]

/-- The normalized shape `+1` followed by ten digits is itself accepted by
the phone matcher. -/
theorem phone_match_norm (d : List Char) (hlen : d.length = 10)
    (hdig : ∀ c ∈ d, c.isDigit = true) :
    phone_match ('+' :: '1' :: d) = true := by
  unfold phone_match
  apply optThen_take _ _ _ _ (by decide)
  apply optThen_take _ _ _ _ (by decide)
  apply optThen_skip
  apply optThen_skip
  apply digitsThen_intro _ _ _ _ (eatDigits_all 3 d hdig (by omega))
  apply optThen_skip
  apply optThen_skip
  apply digitsThen_intro _ _ _ _
    (eatDigits_all 3 (d.drop 3) (fun c hc => hdig c (List.mem_of_mem_drop hc))
      (by simp [List.length_drop, hlen]))
  apply optThen_skip
  apply digitsThen_intro _ _ _ _
    (eatDigits_all 4 ((d.drop 3).drop 3)
      (fun c hc => hdig c (List.mem_of_mem_drop (List.mem_of_mem_drop hc)))
      (by simp [List.length_drop, hlen]))
  have hnil : ((d.drop 3).drop 3).drop 4 = [] := by
    have : (((d.drop 3).drop 3).drop 4).length = 0 := by
      simp [List.length_drop, hlen]
    exact List.length_eq_zero.mp this
  rw [hnil]
  rfl

/-- A normalized phone string validates to itself. -/
theorem validate_phone_of_norm (d : List Char) (hlen : d.length = 10)
    (hdig : ∀ c ∈ d, c.isDigit = true) :
    validate_phone (String.mk ('+' :: '1' :: d)) = .ok (String.mk ('+' :: '1' :: d)) := by
  have hnospace : ∀ c ∈ '+' :: '1' :: d, is_space c = false := by
    intro c hc
    rcases List.mem_cons.mp hc with rfl | hc
    · rfl
    rcases List.mem_cons.mp hc with rfl | hc
    · rfl
    · exact digit_not_space c (hdig c hc)
  have hstrip : pyStrip ('+' :: '1' :: d) = '+' :: '1' :: d := pyStrip_eq_self _ hnospace
  have hmatch := phone_match_norm d hlen hdig
  have hextract : extract_digits ('+' :: '1' :: d) = '1' :: d := by
    unfold extract_digits
    simp [List.filter_cons, filter_all_digits d hdig]
  simp [validate_phone, hstrip, hmatch, hextract, hlen]

/-- Every accepted input normalizes to `+1` plus ten digits, and the result
validates to itself. -/
theorem validate_phone_ok_shape (s r : String) (h : validate_phone s = .ok r) :
    (∃ d, r.data = '+' :: '1' :: d ∧ d.length = 10 ∧ ∀ c ∈ d, c.isDigit = true)
    ∧ validate_phone r = .ok r := by
  simp only [validate_phone] at h
  by_cases hemp : s.data.isEmpty
  · rw [if_pos hemp] at h
    cases h
  rw [if_neg hemp] at h
  by_cases hm : phone_match (pyStrip s.data) = true
  case neg =>
    rw [if_neg hm] at h
    cases h
  rw [if_pos hm] at h
  obtain ⟨d, hdlen, hddig, hext⟩ := phone_match_digits (pyStrip s.data) hm
  rcases hext with hext | hext
  · rw [hext] at h
    rw [if_pos hdlen] at h
    have hr : r = String.mk ('+' :: '1' :: d) := by
      cases h
      rfl
    subst hr
    exact ⟨⟨d, rfl, hdlen, hddig⟩, validate_phone_of_norm d hdlen hddig⟩
  · rw [hext] at h
    have h11 : ('1' :: d).length = 11 := by simp [hdlen]
    rw [if_neg (by simp [h11]), if_pos (by simp [h11])] at h
    have hr : r = String.mk ('+' :: '1' :: d) := by
      cases h
      rfl
    subst hr
    exact ⟨⟨d, rfl, hdlen, hddig⟩, validate_phone_of_norm d hdlen hddig⟩

/-- C8: the three spec examples all normalize to `"+14155551234"`, and in
general every accepted phone string is returned as `+1` followed by exactly
ten digits, with `validate_phone` idempotent on its own output. -/
theorem validate_phone_normalization :
    validate_phone "4155551234" = .ok "+14155551234"
    ∧ validate_phone "(415) 555-1234" = .ok "+14155551234"
    ∧ validate_phone "+14155551234" = .ok "+14155551234"
    ∧ ∀ s r : String, validate_phone s = .ok r →
        (∃ d, r.data = '+' :: '1' :: d ∧ d.length = 10 ∧ ∀ c ∈ d, c.isDigit = true)
        ∧ validate_phone r = .ok r :=
  ⟨rfl, rfl, rfl, fun s r h => validate_phone_ok_shape s r h⟩

/-- C8, witness: the general normalization and idempotence facts
instantiated on the first spec example. -/
theorem validate_phone_normalization_witness :
    (∃ d, ("+14155551234" : String).data = '+' :: '1' :: d ∧ d.length = 10
        ∧ ∀ c ∈ d, c.isDigit = true)
    ∧ validate_phone "+14155551234" = .ok "+14155551234" :=
  validate_phone_normalization.2.2.2 "4155551234" "+14155551234" rfl

end ProductionUtils
